import Mathlib

/-!
Verification of the vaultfs synthetic-filesystem engine.

This file shallowly embeds the Go sources of the vaultfs repository:
  * `vaultapi` (src/unnamed/part_001): the error taxonomy, the
    `narrowVaultError` classifier and the authenticated backend `Auth`.
  * `fs/secretdir.go`: the five-valued classifier `SecretDir.lookup`, the
    kernel operations `Attr`, `Lookup`, `ReadDirAll` and their helpers.
  * `fs/staticvalue.go`: the static-value node and its `Read`.

Remote responses are modelled as oracles (`BackendOps`, `RawLogical`)
returning a pair (optional secret, optional error), exactly the shape of a
Go `(*api.Secret, error)` return.  Machine integers of the source hold
lease durations and inode numbers only; no arithmetic overflows, so they
are modelled as `Int`/`Nat`.
-/

/-! ## Go string helpers -/

/-- Character-list version of Go `strings.HasPrefix` restricted to what
`strings.Contains` needs: does `needle` start at the head of the list? -/
def charsStart : List Char → List Char → Bool
  | [], _ => true
  | _ :: _, [] => false
  | a :: as, b :: bs => a == b && charsStart as bs

/-- Does `needle` occur contiguously somewhere in the list? -/
def charsHave (needle : List Char) : List Char → Bool
  | [] => charsStart needle []
  | c :: rest => charsStart needle (c :: rest) || charsHave needle rest

/-- Go `strings.Contains hay needle`. -/
def goContains (hay needle : String) : Bool :=
  charsHave needle.toList hay.toList

/-- Helper for Go `strings.TrimRight s "/"`: drop leading `'/'` characters
(applied to the reversed character list). -/
def dropSlashes : List Char → List Char
  | [] => []
  | c :: cs => if c == '/' then dropSlashes cs else c :: cs

/-- Go `strings.TrimRight s "/"`: remove every trailing `'/'`. -/
def trimTrailingSlash (s : String) : String :=
  ⟨(dropSlashes s.toList.reverse).reverse⟩

/-! ## The vaultapi error taxonomy (src/unnamed/part_001)

Go errors are values implementing `Error() string`; the vaultapi wrappers
additionally expose their inner cause through `WrappedErrors`.  `VErr`
models exactly the closed set that occurs in this program: an opaque
error from the vault client library (`base`, carrying its message) and
the five vaultapi wrappers.  `ErrAuthFailed` is the only wrapper the
source ever builds with a nil inner error (`ErrAuthFailed{nil}`), so it
gets two constructors: `authFailed inner` and `authFailedNil`. -/

inductive VErr where
  | base (msg : String)
  | auth (inner : VErr)
  | authFailed (inner : VErr)
  | authFailedNil
  | permissionDenied (inner : VErr)
  | missingClientToken (inner : VErr)
  | vaultInaccessible (inner : VErr)
deriving DecidableEq

/-- The `Error()` method of each error type.  Every vaultapi wrapper
returns a fixed message (part_001 lines 20-91); `base` returns the
message of the underlying client-library error. -/
def VErr.message : VErr → String
  | .base msg => msg
  | .auth _ => "authentication error"
  | .authFailed _ => "authentication attempt failed"
  | .authFailedNil => "authentication attempt failed"
  | .permissionDenied _ => "permission denied"
  | .missingClientToken _ => "missing client token"
  | .vaultInaccessible _ => "vault inaccessible"

/-- `errwrap.ContainsType(err, new(vaultapi.ErrVaultInaccessible))`: walk
the error and its wrapped causes looking for an `ErrVaultInaccessible`.
`base` errors wrap nothing; `authFailed none` has a nil inner error. -/
def VErr.hasVaultInaccessible : VErr → Bool
  | .base _ => false
  | .auth inner => inner.hasVaultInaccessible
  | .authFailed inner => inner.hasVaultInaccessible
  | .authFailedNil => false
  | .permissionDenied inner => inner.hasVaultInaccessible
  | .missingClientToken inner => inner.hasVaultInaccessible
  | .vaultInaccessible _ => true

/-- `narrowVaultError` (part_001 lines 240-250): wrap a returned error
with a specific error type based on its message content. -/
def narrowVaultError (err : VErr) : VErr :=
  if goContains err.message "* permission denied" then
    .auth (.permissionDenied err)
  else if !(goContains err.message "* missing client token") then
    .auth (.missingClientToken err)
  else
    .vaultInaccessible err

/-! ### Sanity examples for the string model -/

example : goContains "abc * permission denied by policy" "* permission denied" = true := by decide
example : goContains "permission denied" "* permission denied" = false := by decide
example : trimTrailingSlash "db//" = "db" := by decide
example : trimTrailingSlash "" = "" := by decide

/-! ### Shape of `narrowVaultError` output -/

/-- Everything `narrowVaultError` returns is an `auth` wrapper or a
`vaultInaccessible` wrapper. -/
theorem narrowVaultError_shape (err : VErr) :
    (∃ e, narrowVaultError err = .auth e) ∨
    (∃ e, narrowVaultError err = .vaultInaccessible e) := by
  unfold narrowVaultError
  split
  · exact .inl ⟨_, rfl⟩
  · split
    · exact .inl ⟨_, rfl⟩
    · exact .inr ⟨_, rfl⟩

/-- C2 counterexample: an error whose message is exactly
"permission denied" (so it contains the phrase but not the starred form
"* permission denied" the code greps for) is classified as
`Auth(MissingClientToken)`, not `Auth(PermissionDenied)` as the claim
states. -/
theorem narrow_plain_permission_denied_counterexample :
    narrowVaultError (.base "permission denied")
        = .auth (.missingClientToken (.base "permission denied"))
    ∧ narrowVaultError (.base "permission denied")
        ≠ .auth (.permissionDenied (.base "permission denied")) := by
  constructor
  · rfl
  · decide

/-- C2 (amended): `narrowVaultError` classifies by the starred textual
signatures that the vault client library produces: a message containing
"* permission denied" yields `Auth(PermissionDenied(err))`; otherwise a
message not containing "* missing client token" yields
`Auth(MissingClientToken(err))`; otherwise `VaultInaccessible(err)`. -/
theorem narrowVaultError_starred_signatures (err : VErr) :
    (goContains err.message "* permission denied" = true →
      narrowVaultError err = .auth (.permissionDenied err))
    ∧ (goContains err.message "* permission denied" = false →
       goContains err.message "* missing client token" = false →
      narrowVaultError err = .auth (.missingClientToken err))
    ∧ (goContains err.message "* permission denied" = false →
       goContains err.message "* missing client token" = true →
      narrowVaultError err = .vaultInaccessible err) := by
  refine ⟨fun h1 => ?_, fun h1 h2 => ?_, fun h1 h2 => ?_⟩
  · simp [narrowVaultError, h1]
  · simp [narrowVaultError, h1, h2]
  · simp [narrowVaultError, h1, h2]

/-- Witness for the amended C2 theorem at concrete inputs. -/
theorem narrowVaultError_starred_signatures_witness :
    narrowVaultError (.base "Code: 403. Errors: * permission denied")
        = .auth (.permissionDenied (.base "Code: 403. Errors: * permission denied"))
    ∧ narrowVaultError (.base "connection refused")
        = .auth (.missingClientToken (.base "connection refused"))
    ∧ narrowVaultError (.base "Code: 400. Errors: * missing client token")
        = .vaultInaccessible (.base "Code: 400. Errors: * missing client token") :=
  ⟨(narrowVaultError_starred_signatures
      (.base "Code: 403. Errors: * permission denied")).1 (by decide),
   (narrowVaultError_starred_signatures
      (.base "connection refused")).2.1 (by decide) (by decide),
   (narrowVaultError_starred_signatures
      (.base "Code: 400. Errors: * missing client token")).2.2 (by decide) (by decide)⟩

/-- C8 counterexample: `narrow` is not idempotent.  At the transport
error "connection refused", applying the classifier twice wraps a second
time. -/
theorem narrow_not_idempotent_counterexample :
    narrowVaultError (narrowVaultError (.base "connection refused"))
      ≠ narrowVaultError (.base "connection refused") := by
  decide

/-- C8 (amended): applying the classifier to an already-wrapped error
always wraps again: narrow(narrow(err)) = Auth(MissingClientToken(narrow(err))),
which is never equal to narrow(err).  The wrapper messages
("authentication error" / "vault inaccessible") match neither starred
signature, so the rewrap always takes the `MissingClientToken` arm. -/
theorem narrow_rewraps (err : VErr) :
    narrowVaultError (narrowVaultError err)
        = .auth (.missingClientToken (narrowVaultError err))
    ∧ narrowVaultError (narrowVaultError err) ≠ narrowVaultError err := by
  have hshape := narrowVaultError_shape err
  have hwrap : ∀ x : VErr, VErr.auth (.missingClientToken x) ≠ x := by
    intro x hx
    have hs := congrArg sizeOf hx
    simp at hs
    omega
  have heq : narrowVaultError (narrowVaultError err)
      = .auth (.missingClientToken (narrowVaultError err)) := by
    rcases hshape with ⟨e, h⟩ | ⟨e, h⟩ <;> rw [h] <;> rfl
  exact ⟨heq, fun hc => hwrap (narrowVaultError err) (heq.symm.trans hc)⟩

/-! ## The secret record (hashicorp/vault `api.Secret`)

Dynamic JSON-ish values stored in a Go `map[string]interface{}`.  The
program only ever distinguishes: nil interface values, strings, slices
(`[]interface{}`), nested maps, and "anything else" (which every type
switch in the source treats alike); `int` stands in for the non-string
scalar case. -/

inductive GoVal where
  | vnil
  | str (s : String)
  | int (n : Int)
  | arr (elems : List GoVal)
  | map (fields : List (String × GoVal))

/-- Go map index with comma-ok (`v, found := m[key]`).  Go maps have
unique keys; an association list with first-match lookup models them. -/
def lookupAssoc : List (String × GoVal) → String → Option GoVal
  | [], _ => none
  | (k, v) :: rest, key => if k = key then some v else lookupAssoc rest key

/-- `api.SecretAuth`. -/
structure SecretAuth where
  clientToken : String
  accessor : String
  policies : List String
  metadata : List (String × String)
  leaseDuration : Int
  renewable : Bool

/-- `api.SecretWrapInfo`; `creationTime` carries the rendering
`CreationTime.String()` would produce, which is all the program uses. -/
structure SecretWrapInfo where
  token : String
  ttl : Int
  creationTime : String
  wrappedAccessor : String

/-- `api.Secret`.  A nil `Data` map is `none`. -/
structure ApiSecret where
  leaseID : String
  leaseDuration : Int
  renewable : Bool
  data : Option (List (String × GoVal))
  warnings : List String
  auth : Option SecretAuth
  wrapInfo : Option SecretWrapInfo

/-! ## FUSE surface types -/

inductive DirentType where
  | file
  | dir
deriving DecidableEq

/-- `fuse.Dirent`. -/
structure Dirent where
  name : String
  inode : Nat
  typ : DirentType
deriving DecidableEq

/-- The two errno values this layer returns to the kernel. -/
inductive FuseErr where
  | eio
  | enoent
deriving DecidableEq

/-- The attribute fields `SecretDir.Attr` populates: owner, group, and a
mode split into its directory bit and permission bits. -/
structure FuseAttr where
  uid : Nat
  gid : Nat
  isDir : Bool
  perm : Nat
deriving DecidableEq

/-! ## The five-valued classifier (fs/secretdir.go) -/

/-- `SecretType` (secretdir.go lines 73-90). -/
inductive SecretType where
  | backendError
  | inaccessible
  | nonExistent
  | directory
  | secret
deriving DecidableEq

/-- The authenticated backend as the node code sees it
(`s.fs.logic()`): `Read` and `List`, each returning a Go pair
`(*api.Secret, error)`.  Responses are an oracle: any function of the
path. -/
structure BackendOps where
  read : String → Option ApiSecret × Option VErr
  list : String → Option ApiSecret × Option VErr

/-- Continuation of `SecretDir.lookup` after the `List` call (secretdir.go
lines 154-171): a list error wrapping `ErrVaultInaccessible` is fatal,
any other list error means inaccessible, a non-nil secret is a
directory, and nil means the key does not exist. -/
def secretDirListTail (b : BackendOps) (lookupPath : String) :
    SecretType × Option ApiSecret :=
  match b.list lookupPath with
  | (_, some e) =>
      if e.hasVaultInaccessible then (.backendError, none)
      else (.inaccessible, none)
  | (some s, none) => (.directory, some s)
  | (none, none) => (.nonExistent, none)

/-- Continuation of `SecretDir.lookup` after the `Read` error check
(secretdir.go lines 148-151): a non-nil secret is a literal secret,
otherwise fall through to listing. -/
def secretDirReadTail (b : BackendOps) (lookupPath : String) :
    Option ApiSecret → SecretType × Option ApiSecret
  | some s => (.secret, some s)
  | none => secretDirListTail b lookupPath

/-- `SecretDir.lookup` (secretdir.go lines 128-172): probe `Read`; an
error wrapping `ErrVaultInaccessible` is fatal; any other read error
falls through (permission denied and variants); then dispatch on the
read secret and, when nil, on the listing. -/
def secretDirLookup (b : BackendOps) (lookupPath : String) :
    SecretType × Option ApiSecret :=
  match b.read lookupPath with
  | (secret, some e) =>
      if e.hasVaultInaccessible then (.backendError, none)
      else secretDirReadTail b lookupPath secret
  | (secret, none) => secretDirReadTail b lookupPath secret

/-- The claim's fall-through condition on the `Read` probe: no secret
came back, and there was either no error or only a non-fatal one. -/
def readFallsThrough (b : BackendOps) (p : String) : Prop :=
  (b.read p).1 = none ∧
    ((b.read p).2 = none ∨
      ∃ e, (b.read p).2 = some e ∧ e.hasVaultInaccessible = false)

/-- C1: the classifier follows exactly the claimed algorithm: fatal read
error → `(BackendError, nil)`; non-nil read secret (with at most a
non-fatal read error) → `(Secret, secret)`; otherwise list: fatal list
error → `(BackendError, nil)`; other list error → `(Inaccessible, nil)`;
non-nil listing → `(Directory, secret)`; nil listing → `(NonExistent, nil)`. -/
theorem secretDir_lookup_classifies (b : BackendOps) (p : String) :
    (∀ s e, b.read p = (s, some e) → e.hasVaultInaccessible = true →
        secretDirLookup b p = (.backendError, none))
    ∧ (∀ s, b.read p = (some s, none) →
        secretDirLookup b p = (.secret, some s))
    ∧ (∀ s e, b.read p = (some s, some e) → e.hasVaultInaccessible = false →
        secretDirLookup b p = (.secret, some s))
    ∧ (readFallsThrough b p →
        (∀ e, (b.list p).2 = some e → e.hasVaultInaccessible = true →
            secretDirLookup b p = (.backendError, none))
        ∧ (∀ e, (b.list p).2 = some e → e.hasVaultInaccessible = false →
            secretDirLookup b p = (.inaccessible, none))
        ∧ (∀ s, b.list p = (some s, none) →
            secretDirLookup b p = (.directory, some s))
        ∧ (b.list p = (none, none) →
            secretDirLookup b p = (.nonExistent, none))) := by
  refine ⟨fun s e hr he => ?_, fun s hr => ?_, fun s e hr he => ?_, fun hft => ?_⟩
  · simp [secretDirLookup, hr, he]
  · simp [secretDirLookup, hr, secretDirReadTail]
  · simp [secretDirLookup, hr, he, secretDirReadTail]
  · obtain ⟨hnone, herr⟩ := hft
    have hred : secretDirLookup b p = secretDirListTail b p := by
      rcases hrd : b.read p with ⟨rs, re⟩
      rw [hrd] at hnone
      simp at hnone
      subst hnone
      rcases herr with h2 | ⟨e, h2, he2⟩ <;> rw [hrd] at h2 <;> simp at h2
      · rw [h2] at hrd
        simp [secretDirLookup, hrd, secretDirReadTail]
      · rw [h2] at hrd
        simp [secretDirLookup, hrd, he2, secretDirReadTail]
    refine ⟨fun e hl he => ?_, fun e hl he => ?_, fun s hl => ?_, fun hl => ?_⟩
    · rcases hld : b.list p with ⟨ls, le⟩
      rw [hld] at hl
      simp at hl
      subst hl
      rw [hred]
      simp [secretDirListTail, hld, he]
    · rcases hld : b.list p with ⟨ls, le⟩
      rw [hld] at hl
      simp at hl
      subst hl
      rw [hred]
      simp [secretDirListTail, hld, he]
    · rw [hred]
      simp [secretDirListTail, hl]
    · rw [hred]
      simp [secretDirListTail, hl]

/-! ## ReadDirAll (fs/secretdir.go lines 316-394) -/

/-- One iteration of the dirent-projection loop (secretdir.go lines
344-358).  A failed `value.(string)` assertion only logs; `rawName`
keeps the Go zero value `""` and the entry is still appended. -/
def direntOfKey (v : GoVal) : Dirent :=
  { name := trimTrailingSlash (match v with | .str s => s | _ => ""),
    inode := 0,
    typ := .dir }

/-- `readDirAllDirSecret` (secretdir.go lines 316-361): nil secret is
ENOENT; a nil data map, a missing `keys` field, a nil `keys` value or a
non-list `keys` value all yield an empty listing without error; a list
is projected entry by entry. -/
def readDirAllDirSecret (secret : Option ApiSecret) :
    List Dirent × Option FuseErr :=
  match secret with
  | none => ([], some .enoent)
  | some s =>
    match s.data with
    | none => ([], none)
    | some data =>
      match lookupAssoc data "keys" with
      | none => ([], none)
      | some .vnil => ([], none)
      | some (.arr keylist) => (keylist.map direntOfKey, none)
      | some _ => ([], none)

/-- `secretDirEntrys` (secretdir.go lines 27-69): the static map of
directory items under a non-listable secret.  Go map iteration order is
unspecified; the model fixes source order and order-insensitive claims
are stated up to permutation. -/
def secretDirEntrys : List (String × Dirent) :=
  [("lease_id", { name := "lease_id", inode := 0, typ := .file }),
   ("lease_duration", { name := "lease_duration", inode := 0, typ := .file }),
   ("renewable", { name := "renewable", inode := 0, typ := .file }),
   ("data", { name := "data", inode := 0, typ := .dir }),
   ("warnings", { name := "warnings", inode := 0, typ := .file }),
   ("auth", { name := "auth", inode := 0, typ := .dir }),
   ("wrap_info", { name := "wrap_info", inode := 0, typ := .dir })]

/-- `readDirAllSecret` (secretdir.go lines 363-371): emit every entry of
the static map, ignoring the fetched secret entirely. -/
def readDirAllSecret (_secret : Option ApiSecret) :
    List Dirent × Option FuseErr :=
  (secretDirEntrys.map Prod.snd, none)

/-- `SecretDir.ReadDirAll` (secretdir.go lines 374-394). -/
def secretDirReadDirAll (b : BackendOps) (p : String) :
    List Dirent × Option FuseErr :=
  match secretDirLookup b p with
  | (.backendError, _) => ([], some .eio)
  | (.nonExistent, _) => ([], some .enoent)
  | (.inaccessible, _) => ([], none)
  | (.directory, secret) => readDirAllDirSecret secret
  | (.secret, secret) => readDirAllSecret secret

/-- C7: in `Secret` state, `ReadDirAll` emits dirents for exactly the
seven fixed names (up to map-iteration order), typed `data`, `auth`,
`wrap_info` as directories and the rest as files, with inode 0, no
error, whatever the fetched secret contains. -/
theorem readDirAllSecret_seven_names (secret : Option ApiSecret) :
    ((readDirAllSecret secret).1.map Dirent.name).Perm
        ["lease_id", "lease_duration", "renewable", "data", "warnings",
         "auth", "wrap_info"]
    ∧ (∀ d ∈ (readDirAllSecret secret).1,
        d.inode = 0 ∧
        d.typ = (if d.name = "data" ∨ d.name = "auth" ∨ d.name = "wrap_info"
                 then DirentType.dir else DirentType.file))
    ∧ (readDirAllSecret secret).2 = none := by
  refine ⟨List.Perm.refl _, ?_, rfl⟩
  show ∀ d ∈ secretDirEntrys.map Prod.snd,
      d.inode = 0 ∧
      d.typ = (if d.name = "data" ∨ d.name = "auth" ∨ d.name = "wrap_info"
               then DirentType.dir else DirentType.file)
  decide

/-- Witness for C7: the `data` entry of the fixed listing, checked at a
concrete (absent) secret. -/
theorem readDirAllSecret_seven_names_witness :
    Dirent.mk "data" 0 .dir ∈ (readDirAllSecret none).1
    ∧ ((Dirent.mk "data" 0 .dir).inode = 0
       ∧ (Dirent.mk "data" 0 .dir).typ =
          (if (Dirent.mk "data" 0 .dir).name = "data"
              ∨ (Dirent.mk "data" 0 .dir).name = "auth"
              ∨ (Dirent.mk "data" 0 .dir).name = "wrap_info"
           then DirentType.dir else DirentType.file)) :=
  ⟨by decide,
   (readDirAllSecret_seven_names none).2.1 (Dirent.mk "data" 0 .dir) (by decide)⟩

/-- Is the dynamic value a Go `[]interface{}`? -/
def isGoList : GoVal → Bool
  | .arr _ => true
  | _ => false

/-- C10: `readDirAllDirSecret` never fails on a malformed listing shape:
for a present secret the error is always nil, and a nil data map, a
missing `keys` field, a nil `keys` value or a non-list `keys` value all
produce the empty dirent list; only a nil secret gives ENOENT. -/
theorem readDirAllDir_tolerates_malformed (os : Option ApiSecret) :
    (os = none → readDirAllDirSecret os = ([], some .enoent))
    ∧ (∀ s, os = some s → (readDirAllDirSecret os).2 = none)
    ∧ (∀ s, os = some s →
        (s.data = none
          ∨ ∃ d, s.data = some d ∧
              (lookupAssoc d "keys" = none
                ∨ lookupAssoc d "keys" = some .vnil
                ∨ ∃ ks, lookupAssoc d "keys" = some ks ∧ isGoList ks = false)) →
        readDirAllDirSecret os = ([], none)) := by
  refine ⟨fun h => by subst h; rfl, fun s h => ?_, fun s h hmal => ?_⟩
  · subst h
    rcases hd : s.data with _ | d
    · simp [readDirAllDirSecret, hd]
    · rcases hk : lookupAssoc d "keys" with _ | v
      · simp [readDirAllDirSecret, hd, hk]
      · cases v <;> simp [readDirAllDirSecret, hd, hk]
  · subst h
    rcases hmal with hd | ⟨d, hd, hks⟩
    · simp [readDirAllDirSecret, hd]
    · rcases hks with hk | hk | ⟨ks, hk, hlist⟩
      · simp [readDirAllDirSecret, hd, hk]
      · simp [readDirAllDirSecret, hd, hk]
      · cases ks <;> simp_all [readDirAllDirSecret, isGoList]

/-- Witness for C10 at a concrete secret whose `keys` field is a
non-list value. -/
theorem readDirAllDir_tolerates_malformed_witness :
    readDirAllDirSecret (some
      { leaseID := "", leaseDuration := 0, renewable := false,
        data := some [("keys", GoVal.str "oops")],
        warnings := [], auth := none, wrapInfo := none }) = ([], none) :=
  (readDirAllDir_tolerates_malformed (some
      { leaseID := "", leaseDuration := 0, renewable := false,
        data := some [("keys", GoVal.str "oops")],
        warnings := [], auth := none, wrapInfo := none })).2.2 _ rfl
    (Or.inr ⟨_, rfl, Or.inr (Or.inr ⟨GoVal.str "oops", rfl, rfl⟩)⟩)

/-- C4 (code bug): a non-string entry inside `keys` is logged but NOT
omitted — the loop body lacks a `continue`, so the Go zero-value string
is appended and an empty-named, directory-typed dirent appears in the
result alongside the valid entries. -/
theorem readDirAllDir_nonstring_entry_not_skipped :
    readDirAllDirSecret (some
      { leaseID := "", leaseDuration := 0, renewable := false,
        data := some [("keys", GoVal.arr [GoVal.str "a", GoVal.int 42])],
        warnings := [], auth := none, wrapInfo := none })
      = ([{ name := "a", inode := 0, typ := .dir },
          { name := "", inode := 0, typ := .dir }], none) := by
  rfl

/-! ## Attr (fs/secretdir.go lines 243-266) -/

/-- `SecretDir.Attr`: probe the node's own path and map the state to
attributes; the Go code writes `a.Uid = 0; a.Gid = 0` up front and the
kernel discards attributes on error, so errors carry no attribute.  The
`default: return fuse.EIO` arm of the Go switch is unreachable here
because `SecretType` is a closed enum. -/
def secretDirAttr (b : BackendOps) (p : String) : Except FuseErr FuseAttr :=
  match (secretDirLookup b p).1 with
  | .backendError => .error .eio
  | .nonExistent => .error .enoent
  | .inaccessible => .ok { uid := 0, gid := 0, isDir := true, perm := 0o111 }
  | .directory => .ok { uid := 0, gid := 0, isDir := true, perm := 0o555 }
  | .secret => .ok { uid := 0, gid := 0, isDir := true, perm := 0o555 }

/-- C6: `Attr` maps BackendError to EIO, NonExistent to ENOENT,
Inaccessible to a mode-0111 directory, Directory/Secret to a mode-0555
directory, and every successful case has owner and group zero. -/
theorem secretDir_attr_states (b : BackendOps) (p : String) :
    ((secretDirLookup b p).1 = .backendError →
        secretDirAttr b p = .error .eio)
    ∧ ((secretDirLookup b p).1 = .nonExistent →
        secretDirAttr b p = .error .enoent)
    ∧ ((secretDirLookup b p).1 = .inaccessible →
        secretDirAttr b p = .ok { uid := 0, gid := 0, isDir := true, perm := 0o111 })
    ∧ ((secretDirLookup b p).1 = .directory ∨ (secretDirLookup b p).1 = .secret →
        secretDirAttr b p = .ok { uid := 0, gid := 0, isDir := true, perm := 0o555 })
    ∧ (∀ a, secretDirAttr b p = .ok a → a.uid = 0 ∧ a.gid = 0) := by
  refine ⟨fun h => by simp [secretDirAttr, h], fun h => by simp [secretDirAttr, h],
    fun h => by simp [secretDirAttr, h], fun h => ?_, fun a ha => ?_⟩
  · rcases h with h | h <;> simp [secretDirAttr, h]
  · rcases hst : (secretDirLookup b p).1 <;> simp [secretDirAttr, hst] at ha <;>
      simp [← ha]

/-- A backend that answers every read and list with the starred
permission-denied message the vault client produces for 403s. -/
def permDeniedBackend : BackendOps :=
  { read := fun _ => (none, some (.base "Code: 403. Errors: * permission denied")),
    list := fun _ => (none, some (.base "Code: 403. Errors: * permission denied")) }

/-- Witness for C6: against `permDeniedBackend` the state is
Inaccessible and `Attr` yields a mode-0111 directory owned by uid 0. -/
theorem secretDir_attr_states_witness :
    secretDirAttr permDeniedBackend "secret"
      = .ok { uid := 0, gid := 0, isDir := true, perm := 0o111 } :=
  (secretDir_attr_states permDeniedBackend "secret").2.2.1 rfl

/-- A backend whose transport is down: every call errors with
`ErrVaultInaccessible`. -/
def downBackend : BackendOps :=
  { read := fun _ => (none, some (.vaultInaccessible (.base "connection refused"))),
    list := fun _ => (none, some (.vaultInaccessible (.base "connection refused"))) }

/-- Witness for C1: a fatal read error classifies as BackendError. -/
theorem secretDir_lookup_classifies_witness :
    secretDirLookup downBackend "secret" = (.backendError, none) :=
  (secretDir_lookup_classifies downBackend "secret").1 none
    (.vaultInaccessible (.base "connection refused")) rfl rfl

/-! ## StaticValue.Read (fs/staticvalue.go lines 40-56) -/

/-- `StaticValue.Read`: fail when the offset exceeds the buffer length,
return the empty slice for an empty buffer, else copy
`min size (length - offset)` bytes starting at `offset` (the Go
`copy(resp.Data[0:req.Size], f.value[req.Offset:])`).  `none` models the
"offset greater than file size" error return. -/
def svRead (value : List Nat) (offset size : Nat) : Option (List Nat) :=
  if value.length < offset then none
  else if value.length = 0 then some []
  else some ((value.drop offset).take size)

/-- C5: `Read(offset, size)` fails exactly when `offset > len(b)`;
reading at `offset = len(b)` returns the empty slice without error;
`Read(0, len(b))` returns the whole buffer; and every successful read
returns the first `size` bytes of the buffer from `offset` on. -/
theorem staticValue_read_props (v : List Nat) (offset size : Nat) :
    (svRead v offset size = none ↔ v.length < offset)
    ∧ svRead v v.length size = some []
    ∧ svRead v 0 v.length = some v
    ∧ (∀ r, svRead v offset size = some r → r = (v.drop offset).take size) := by
  refine ⟨?_, ?_, ?_, ?_⟩
  · constructor
    · intro h
      by_contra hlt
      unfold svRead at h
      rw [if_neg hlt] at h
      by_cases h0 : v.length = 0
      · rw [if_pos h0] at h
        exact Option.noConfusion h
      · rw [if_neg h0] at h
        exact Option.noConfusion h
    · intro h
      unfold svRead
      rw [if_pos h]
  · unfold svRead
    split_ifs with h1 h2
    · omega
    · rfl
    · simp [List.drop_length]
  · unfold svRead
    split_ifs with h1 h2
    · omega
    · simp [List.length_eq_zero.mp h2]
    · simp [List.take_length]
  · intro r h
    unfold svRead at h
    split_ifs at h with h1 h2
    · simp at h
      subst h
      obtain rfl : v = [] := List.length_eq_zero.mp h2
      simp
    · simp at h
      exact h.symm

/-- Witness for C5 at a concrete buffer. -/
theorem staticValue_read_props_witness :
    svRead [1, 2, 3] 5 0 = none
    ∧ ([2, 3] : List Nat) = ([1, 2, 3].drop 1).take 2 :=
  ⟨(staticValue_read_props [1, 2, 3] 5 0).1.mpr (by decide),
   (staticValue_read_props [1, 2, 3] 1 2).2.2.2 [2, 3] (by decide)⟩

/-! ## Go `path.Join` / `path.Clean`

`SecretDir.Lookup` builds the child path with `path.Join(s.lookupPath,
name)`.  `Clean` is modelled by its segment formulation, equivalent to
the Go byte-walk: split on `'/'`, drop empty and `"."` segments, resolve
`".."` against the collected segments (keeping leading `".."`s in a
relative path, dropping them in a rooted one), rejoin, and return `"."`
for an empty relative result. -/

/-- Split a character list on `'/'`. -/
def splitSlash : List Char → List (List Char)
  | [] => [[]]
  | c :: cs =>
    if c == '/' then [] :: splitSlash cs
    else
      match splitSlash cs with
      | [] => [[c]]
      | h :: t => (c :: h) :: t

/-- Join segments with `'/'`. -/
def joinSlash : List (List Char) → List Char
  | [] => []
  | [s] => s
  | s :: rest => s ++ '/' :: joinSlash rest

/-- Process segments left to right, collecting the output in reverse. -/
def cleanFold (rooted : Bool) : List (List Char) → List (List Char) → List (List Char)
  | acc, [] => acc
  | acc, seg :: rest =>
    cleanFold rooted
      (if seg = [] ∨ seg = ['.'] then acc
       else if seg = ['.', '.'] then
         match acc with
         | [] => if rooted then [] else [['.', '.']]
         | a :: as => if a = ['.', '.'] then ['.', '.'] :: a :: as else as
       else seg :: acc)
      rest

/-- Does the Go path start with `'/'`? -/
def isRooted (p : String) : Bool :=
  match p.toList with
  | [] => false
  | c :: _ => c == '/'

/-- Go `path.Clean`. -/
def goPathClean (p : String) : String :=
  if isRooted p then
    ⟨'/' :: joinSlash ((cleanFold true [] (splitSlash p.toList)).reverse)⟩
  else if joinSlash ((cleanFold false [] (splitSlash p.toList)).reverse) = [] then
    "."
  else
    ⟨joinSlash ((cleanFold false [] (splitSlash p.toList)).reverse)⟩

/-- Go `path.Join(a, b)`: join the non-empty elements with `'/'` and
clean the result; all-empty input yields `""`. -/
def goPathJoin (a b : String) : String :=
  if a = "" then
    if b = "" then "" else goPathClean b
  else goPathClean (a ++ "/" ++ b)

example : goPathClean "" = "." := by decide
example : goPathClean "/secret//db/" = "/secret/db" := by decide
example : goPathClean "a/../b/./c" = "b/c" := by decide
example : goPathJoin "secret" "db" = "secret/db" := by decide
example : goPathJoin "secret/" "../x" = "x" := by decide

/-- `path.Clean` never returns the empty string. -/
theorem goPathClean_ne_empty (p : String) : goPathClean p ≠ "" := by
  unfold goPathClean
  split_ifs with h1 h2
  · intro h
    exact List.noConfusion (congrArg String.data h)
  · decide
  · intro h
    exact h2 (congrArg String.data h)

/-- `path.Join` with a non-empty first element never returns `""`. -/
theorem goPathJoin_ne_empty (a b : String) (ha : a ≠ "") :
    goPathJoin a b ≠ "" := by
  unfold goPathJoin
  rw [if_neg ha]
  exact goPathClean_ne_empty _

/-! ## Secret field subtree (fs/secretdir.go lines 175-240) -/

/-- A Static Directory entry: a leaf string value or a nested directory. -/
inductive StaticEntry where
  | value (s : String)
  | dir (children : List (String × StaticEntry))

/-- What a `SecretDir.Lookup` call can produce: a child `SecretDir`
node (identified by its lookup path), a `StaticValue` node (identified
by its contents), a `StaticDir` subtree, a FUSE errno, or a constructor
error (`NewSecretDir` on an empty path). -/
inductive LookupResult where
  | secretDirNode (lookupPath : String)
  | valueNode (contents : String)
  | staticDirNode (children : List (String × StaticEntry))
  | lookupError (e : FuseErr)
  | constructorError (msg : String)

/-- `NewSecretDir` (secretdir.go lines 101-120): rejects an empty lookup
path.  (The nil-filesystem check has no counterpart here: the model's
backend is always present.) -/
def newSecretDir (lookupPath : String) : LookupResult :=
  if lookupPath = "" then
    .constructorError "secret root must have non-zero length path"
  else .secretDirNode lookupPath

/-- Modelled from the spec: the Static Directory Node constructor
(`NewStaticDir` is referenced by secretdir.go but its file is not under
src/).  Per spec 4.2 it is built from a nested mapping name → string |
nested-mapping, rejects any leaf whose value is neither, and rejects
duplicate names within a directory. -/
def mkStaticEntry : GoVal → Option StaticEntry
  | .str s => some (.value s)
  | .map [] => some (.dir [])
  | .map ((k, v) :: rest) => do
      let e ← mkStaticEntry v
      let tail ← mkStaticEntry (.map rest)
      match tail with
      | .dir es =>
          if (es.map Prod.fst).contains k then none
          else some (.dir ((k, e) :: es))
      | _ => none
  | _ => none

/-- Modelled from the spec: `NewStaticDir` over a possibly-nil Go map;
a nil mapping yields an empty directory (not an error). -/
def mkStaticDir (m : Option (List (String × GoVal))) : LookupResult :=
  match m with
  | none => .staticDirNode []
  | some fields =>
    match mkStaticEntry (.map fields) with
    | some (.dir es) => .staticDirNode es
    | _ => .constructorError "invalid static directory map"

/-- Go `fmt.Sprintf("%v", b)` for a bool. -/
def goBool (b : Bool) : String := if b then "true" else "false"

/-- The `data` subtree map (secretdir.go lines 195-204): keep the
string-valued entries of `secret.Data`, drop (and log) the rest.  A nil
map iterates zero times. -/
def dataSubdir (data : Option (List (String × GoVal))) : List (String × GoVal) :=
  match data with
  | none => []
  | some fields =>
    fields.filterMap fun kv =>
      match kv.2 with
      | .str s => some (kv.1, GoVal.str s)
      | _ => none

/-- The `auth` subtree map (secretdir.go lines 211-224). -/
def authSubdir (a : SecretAuth) : List (String × GoVal) :=
  [("client_token", .str a.clientToken),
   ("accessor", .str a.accessor),
   ("policies", .str (String.intercalate "\n" a.policies)),
   ("metadata", .map (a.metadata.map fun kv => (kv.1, GoVal.str kv.2))),
   ("lease_duration", .str (toString a.leaseDuration)),
   ("renewable", .str (goBool a.renewable))]

/-- The `wrap_info` subtree map (secretdir.go lines 230-236). -/
def wrapInfoSubdir (w : SecretWrapInfo) : List (String × GoVal) :=
  [("token", .str w.token),
   ("ttl", .str (toString w.ttl)),
   ("creation_time", .str w.creationTime),
   ("wrapped_accessor", .str w.wrappedAccessor)]

/-- `SecretDir.lookupSecret` (secretdir.go lines 175-240): the closed
set of seven recognized names (the `secretDirEntrys` membership test
followed by the switch on the same name); anything else is ENOENT. -/
def lookupSecretField (secret : ApiSecret) (name : String) : LookupResult :=
  if name = "lease_id" then .valueNode secret.leaseID
  else if name = "lease_duration" then .valueNode (toString secret.leaseDuration)
  else if name = "renewable" then .valueNode (goBool secret.renewable)
  else if name = "warnings" then .valueNode (String.intercalate "\n" secret.warnings)
  else if name = "data" then mkStaticDir (some (dataSubdir secret.data))
  else if name = "auth" then
    match secret.auth with
    | none => mkStaticDir none
    | some a => mkStaticDir (some (authSubdir a))
  else if name = "wrap_info" then
    match secret.wrapInfo with
    | none => mkStaticDir none
    | some w => mkStaticDir (some (wrapInfoSubdir w))
  else .lookupError .enoent

/-! ## Lookup (fs/secretdir.go lines 273-314) -/

/-- `SecretDir.Lookup`: probe the node's own path, dispatch on the
state; in `Directory` state probe the child path a second time.  The
`(.secret, none)` arm is unreachable (`secretDirLookup_secret_nonnil`);
the closed `SecretType` enum also makes the Go `default:` arms
unreachable. -/
def secretDirLookupName (b : BackendOps) (lookupPath name : String) :
    LookupResult :=
  let childLookupPath := goPathJoin lookupPath name
  match secretDirLookup b lookupPath with
  | (.backendError, _) => .lookupError .eio
  | (.nonExistent, _) => .lookupError .enoent
  | (.inaccessible, _) => newSecretDir childLookupPath
  | (.directory, _) =>
    match secretDirLookup b childLookupPath with
    | (.backendError, _) => .lookupError .eio
    | (.nonExistent, _) => .lookupError .enoent
    | (_, _) => newSecretDir childLookupPath
  | (.secret, some s) => lookupSecretField s name
  | (.secret, none) => .lookupError .eio

/-- The read-fall-through continuation reports `Secret` only when the
read secret it was handed is non-nil, and then carries it. -/
theorem secretDirReadTail_secret_nonnil (b : BackendOps) (p : String)
    (os : Option ApiSecret) :
    (secretDirReadTail b p os).1 = .secret →
    ∃ s, secretDirReadTail b p os = (.secret, some s) := by
  intro h
  rcases os with _ | s
  · exfalso
    unfold secretDirReadTail secretDirListTail at h
    rcases hl : b.list p with ⟨ls, le⟩
    rw [hl] at h
    rcases le with _ | e2
    · rcases ls with _ | s2
      · simp at h
      · simp at h
    · rcases hft : e2.hasVaultInaccessible <;> simp [hft] at h
  · exact ⟨s, rfl⟩

/-- When the classifier reports `Secret` it always carries the secret it
read. -/
theorem secretDirLookup_secret_nonnil (b : BackendOps) (p : String) :
    (secretDirLookup b p).1 = .secret →
    ∃ s, secretDirLookup b p = (.secret, some s) := by
  intro h
  rcases hr : b.read p with ⟨os, oe⟩
  rcases oe with _ | e
  · have hred : secretDirLookup b p = secretDirReadTail b p os := by
      unfold secretDirLookup
      rw [hr]
    rw [hred] at h ⊢
    exact secretDirReadTail_secret_nonnil b p os h
  · by_cases hf : e.hasVaultInaccessible = true
    · have hred : secretDirLookup b p = (.backendError, none) := by
        unfold secretDirLookup
        rw [hr]
        simp [hf]
      rw [hred] at h
      exact absurd h (by decide)
    · have hred : secretDirLookup b p = secretDirReadTail b p os := by
        unfold secretDirLookup
        rw [hr]
        simp [hf]
      rw [hred] at h ⊢
      exact secretDirReadTail_secret_nonnil b p os h

/-- The classifier consults the backend only at the probed path. -/
theorem secretDirLookup_congr (b b' : BackendOps) (p : String)
    (hr : b'.read p = b.read p) (hl : b'.list p = b.list p) :
    secretDirLookup b' p = secretDirLookup b p := by
  simp only [secretDirLookup, secretDirReadTail, secretDirListTail]
  rw [hr, hl]

/-- C3: `Lookup` dispatch.  In `Inaccessible` state the child is a fresh
`SecretDir` at `lookupPath/name` and no child probe happens (the result
is unchanged under any backend that agrees only at the current path); in
`Directory` state the child path is probed and a child state of
Inaccessible, Directory or Secret yields a fresh `SecretDir`, while
NonExistent yields ENOENT and BackendError yields EIO. -/
theorem secretDir_lookup_name_dispatch (b : BackendOps) (p name : String)
    (hp : p ≠ "") :
    ((secretDirLookup b p).1 = .inaccessible →
        secretDirLookupName b p name = .secretDirNode (goPathJoin p name)
        ∧ ∀ b' : BackendOps, b'.read p = b.read p → b'.list p = b.list p →
            secretDirLookupName b' p name = .secretDirNode (goPathJoin p name))
    ∧ ((secretDirLookup b p).1 = .directory →
        ((secretDirLookup b (goPathJoin p name)).1 = .inaccessible ∨
         (secretDirLookup b (goPathJoin p name)).1 = .directory ∨
         (secretDirLookup b (goPathJoin p name)).1 = .secret →
            secretDirLookupName b p name = .secretDirNode (goPathJoin p name))
        ∧ ((secretDirLookup b (goPathJoin p name)).1 = .nonExistent →
            secretDirLookupName b p name = .lookupError .enoent)
        ∧ ((secretDirLookup b (goPathJoin p name)).1 = .backendError →
            secretDirLookupName b p name = .lookupError .eio)) := by
  have hne := goPathJoin_ne_empty p name hp
  constructor
  · intro h
    rcases hlk : secretDirLookup b p with ⟨st, os⟩
    rw [hlk] at h
    simp at h
    subst h
    constructor
    · simp [secretDirLookupName, hlk, newSecretDir, hne]
    · intro b' hr hl
      have hlk' : secretDirLookup b' p = (.inaccessible, os) :=
        (secretDirLookup_congr b b' p hr hl).trans hlk
      simp [secretDirLookupName, hlk', newSecretDir, hne]
  · intro h
    rcases hlk : secretDirLookup b p with ⟨st, os⟩
    rw [hlk] at h
    simp at h
    subst h
    refine ⟨fun hch => ?_, fun hch => ?_, fun hch => ?_⟩ <;>
      rcases hc : secretDirLookup b (goPathJoin p name) with ⟨cst, cos⟩ <;>
      rw [hc] at hch <;> simp at hch
    · rcases hch with h1 | h1 | h1 <;> subst h1 <;>
        simp [secretDirLookupName, hlk, hc, newSecretDir, hne]
    · subst hch
      simp [secretDirLookupName, hlk, hc]
    · subst hch
      simp [secretDirLookupName, hlk, hc]

/-- A secret with no populated fields. -/
def emptySecret : ApiSecret :=
  { leaseID := "", leaseDuration := 0, renewable := false, data := none,
    warnings := [], auth := none, wrapInfo := none }

/-- A listing response: `data["keys"] = ["db/", "cache"]`. -/
def keysSecret : ApiSecret :=
  { emptySecret with
    data := some [("keys", GoVal.arr [GoVal.str "db/", GoVal.str "cache"])] }

/-- A backend where `secret` lists as a directory containing a readable
secret `secret/db`, and everything else is permission-denied. -/
def mixedBackend : BackendOps :=
  { read := fun q =>
      if q = "secret/db" then (some emptySecret, none)
      else (none, some (.base "Code: 403. Errors: * permission denied")),
    list := fun q =>
      if q = "secret" then (some keysSecret, none)
      else (none, some (.base "Code: 403. Errors: * permission denied")) }

/-- Witness for C3: descending from the Directory-state node `secret`
into the Secret-state child `db` still yields a `SecretDir` node. -/
theorem secretDir_lookup_name_dispatch_witness :
    secretDirLookupName mixedBackend "secret" "db"
      = .secretDirNode (goPathJoin "secret" "db") :=
  ((secretDir_lookup_name_dispatch mixedBackend "secret" "db"
      (by decide)).2 rfl).1 (Or.inr (Or.inr rfl))

/-! ## The authenticated backend `Auth` (src/unnamed/part_001 lines 134-167) -/

/-- The raw `api.Logical` under the backend, as an oracle: `Write` is
the only operation `Auth` uses (login endpoints are written to).  The
payload is a `map[string]interface{}` holding only strings here. -/
structure RawLogical where
  write : String → Option (List (String × String)) → Option ApiSecret × Option VErr

/-- The mutable fields of `vaultBackend` that `Auth` touches, plus the
token installed on the client by `SetToken` (empty when never set). -/
structure VaultBackendState where
  token : String
  authMethod : String
  authUser : String
  authSecret : String
  clientToken : String

/-- A login request issued against the raw store. -/
inductive AuthCall where
  | login (path : String) (payload : Option (List (String × String)))

/-- `secret.Auth.ClientToken`.  The Go code dereferences `secret.Auth`
without a nil check, so a login response with nil `auth` would panic;
the model totalizes that case with the empty string (no claim depends
on it). -/
def authClientToken (s : ApiSecret) : String :=
  match s.auth with
  | some a => a.clientToken
  | none => ""

/-- `vaultBackend.Auth`: with a token already held, set it on the client
and succeed without any login.  Otherwise switch on `authMethod`:
`"cert"` logs in at the certificate endpoint with nil payload, `"ldap"`
at the username-parameterized endpoint with the password payload, and
any other method falls out of the switch having called nothing.  A
failed call surfaces `ErrAuthFailed{err}`, a nil secret surfaces
`ErrAuthFailed{nil}`, otherwise the secret's client token is adopted and
set on the client.  The returned list records the login calls issued. -/
def vaultAuth (raw : RawLogical) (b : VaultBackendState) :
    Option VErr × VaultBackendState × List AuthCall :=
  if b.token = "" then
    match
      (if b.authMethod = "cert" then
        ((raw.write "auth/cert/login" none).1,
         (raw.write "auth/cert/login" none).2,
         [AuthCall.login "auth/cert/login" none])
      else if b.authMethod = "ldap" then
        ((raw.write ("auth/ldap/login/" ++ b.authUser)
            (some [("password", b.authSecret)])).1,
         (raw.write ("auth/ldap/login/" ++ b.authUser)
            (some [("password", b.authSecret)])).2,
         [AuthCall.login ("auth/ldap/login/" ++ b.authUser)
            (some [("password", b.authSecret)])])
      else (none, none, [])) with
    | (_, some e, calls) => (some (.authFailed e), b, calls)
    | (none, none, calls) => (some .authFailedNil, b, calls)
    | (some secret, none, calls) =>
      (none,
       { b with token := authClientToken secret,
                clientToken := authClientToken secret },
       calls)
  else
    (none, { b with clientToken := b.token }, [])

/-- A login response carrying a client token. -/
def tokenSecret : ApiSecret :=
  { emptySecret with
    auth := some { clientToken := "tok-123", accessor := "", policies := [],
                   metadata := [], leaseDuration := 0, renewable := false } }

/-- A raw store that answers every write (hence every login attempt)
with a token-bearing secret. -/
def acceptingRaw : RawLogical :=
  { write := fun _ _ => (some tokenSecret, none) }

/-- C9 (code bug): with no token held and `authMethod = "approle"` — a
method the CLI advertises as supported — `Auth` issues no login call at
all and fails with `ErrAuthFailed{nil}`, even against a store that would
grant a token to any login.  The claimed role-based arm does not exist
in the switch. -/
theorem vaultAuth_approle_ignored :
    vaultAuth acceptingRaw
      { token := "", authMethod := "approle", authUser := "u",
        authSecret := "s", clientToken := "" }
      = (some .authFailedNil,
         { token := "", authMethod := "approle", authUser := "u",
           authSecret := "s", clientToken := "" },
         []) := by
  rfl
